import Mathlib

/-!
OneEdgeService over an abstract AT command channel.

A shallow embedding of `features/TARGET_ONEEDGE/TARGET_EXPERIMENTAL_API/OneEdgeService.cpp`.

* The AT handler (`at_handler`, mbed's `ATHandler`) is not part of the embedded source.
  It is taken as a parameter: a record of arbitrary functions over an arbitrary state
  type `σ`, so that a statement quantified over the record and its state covers every
  deterministic behaviour of the channel (read errors, prompt errors, short writes).
* Every call the service makes on the handler is appended to a trace, in program order.
  Lock discipline and ordering properties are stated on that trace.
* The constants of `OneEdgeService.h` and the payload `get_object_3303()` are not part of
  the embedded source either; they are the fields of `Consts`.
-/

namespace OneEdge

/-! ## Data model -/

/-- One argument of a printf-style AT command (`%d` or `%s`). -/
inductive ATArg where
  | int (v : Int)
  | str (s : String)
  deriving DecidableEq

/-- A call made on the AT handler, with the arguments the service passes. -/
inductive ATCall where
  | lock
  | unlock
  | unlock_return_error
  | cmd_start_stop (cmd cmd_chr format : String) (args : List ATArg)
  | at_cmd_discard (cmd cmd_chr format : String) (args : List ATArg)
  | at_cmd_int (cmd cmd_chr : String)
  | resp_start (pfx : String) (stop : Bool)
  | resp_stop
  | info_resp
  | read_int
  | read_string (size : Nat)
  | skip_param
  | write_bytes (data : String) (len : Nat)
  | get_last_error
  | clear_error
  | flush
  deriving DecidableEq

/-- Modelled from the spec: the Command Channel (`ATHandler`), which the service only
consumes. Each field is the effect of one method on the channel state, together with
the value the method hands back. Nothing is assumed about any of them.

* `at_cmd_int cmd cmd_chr resp` receives the current value of the by-reference `resp`
  and returns `((error code, new value of resp), state)`.
* `read_string size` returns `((ssize_t result, contents of the buffer afterwards), state)`.
* `write_bytes data len` returns the accepted byte count (a `size_t`).
* `get_last_error` is a `const` method: it reads the state and does not change it. -/
structure ATHandler (σ : Type) where
  lock : σ → σ
  unlock : σ → σ
  unlock_return_error : σ → Int × σ
  cmd_start_stop : String → String → String → List ATArg → σ → σ
  at_cmd_discard : String → String → String → List ATArg → σ → Int × σ
  at_cmd_int : String → String → Int → σ → (Int × Int) × σ
  resp_start : String → Bool → σ → σ
  resp_stop : σ → σ
  info_resp : σ → Bool × σ
  read_int : σ → Int × σ
  read_string : Nat → σ → (Int × String) × σ
  skip_param : σ → σ
  write_bytes : String → Nat → σ → Nat × σ
  get_last_error : σ → Int
  clear_error : σ → σ
  flush : σ → σ

/-- Modelled from the spec: the constants of `OneEdgeService.h` and of the network API,
and the object description returned by `get_object_3303()`; none is defined in the
embedded source file, so each is a parameter. -/
structure Consts where
  NSAPI_ERROR_OK : Int
  ME310_CONTEXT_MAX : Nat
  ME310_IPEASY_ACTIVATED_CONTEXT : Int
  ONEEDGE_CLIENT_ENABLED : Int
  ME310_MAX_FULL_FILE_PATH_LENGTH : Nat
  ONEEDGE_CLIENT_STATE_MAX_LENGTH : Nat
  get_object_3303 : String

/-- The channel state together with the calls made on the handler so far. -/
structure World (σ : Type) where
  chan : σ
  trace : List ATCall

/-! ## C library and integer conversions -/

/-- The C function `strlen`. -/
def strlen (s : String) : Nat := s.data.length

/-- Is `needle` an initial segment of `hay`? -/
def starts_with : List Char → List Char → Bool
  | _, [] => true
  | [], _ :: _ => false
  | h :: hs, n :: ns => h == n && starts_with hs ns

/-- Does `needle` occur in `hay` at some offset? -/
def occurs_in : List Char → List Char → Bool
  | [], needle => starts_with [] needle
  | h :: hs, needle => starts_with (h :: hs) needle || occurs_in hs needle

/-- The test `strstr(hay, needle) != NULL`. -/
def strstr (hay needle : String) : Bool := occurs_in hay.data needle.data

/-- Conversion of a `size_t` to the 32-bit `int` it is stored in. -/
def int_of_size_t (n : Nat) : Int :=
  if n % 2 ^ 32 < 2 ^ 31 then ((n % 2 ^ 32 : Nat) : Int) else ((n % 2 ^ 32 : Nat) : Int) - 2 ^ 32

/-- Conversion of an `int` to `size_t`, as the usual arithmetic conversions do when an
`int` is compared with a `size_t`. -/
def size_t_of_int (i : Int) : Nat := (i % 2 ^ 32).toNat

/-! ## Calls on the handler, recorded in the trace -/

section calls
variable {σ : Type} (h : ATHandler σ)

def call_lock (w : World σ) : World σ :=
  ⟨h.lock w.chan, w.trace ++ [ATCall.lock]⟩

def call_unlock (w : World σ) : World σ :=
  ⟨h.unlock w.chan, w.trace ++ [ATCall.unlock]⟩

def call_unlock_return_error (w : World σ) : Int × World σ :=
  ((h.unlock_return_error w.chan).1,
    ⟨(h.unlock_return_error w.chan).2, w.trace ++ [ATCall.unlock_return_error]⟩)

def call_cmd_start_stop (cmd cmd_chr format : String) (args : List ATArg) (w : World σ) :
    World σ :=
  ⟨h.cmd_start_stop cmd cmd_chr format args w.chan,
    w.trace ++ [ATCall.cmd_start_stop cmd cmd_chr format args]⟩

def call_at_cmd_discard (cmd cmd_chr format : String) (args : List ATArg) (w : World σ) :
    Int × World σ :=
  ((h.at_cmd_discard cmd cmd_chr format args w.chan).1,
    ⟨(h.at_cmd_discard cmd cmd_chr format args w.chan).2,
      w.trace ++ [ATCall.at_cmd_discard cmd cmd_chr format args]⟩)

def call_at_cmd_int (cmd cmd_chr : String) (resp : Int) (w : World σ) :
    (Int × Int) × World σ :=
  ((h.at_cmd_int cmd cmd_chr resp w.chan).1,
    ⟨(h.at_cmd_int cmd cmd_chr resp w.chan).2, w.trace ++ [ATCall.at_cmd_int cmd cmd_chr]⟩)

def call_resp_start (pfx : String) (stop : Bool) (w : World σ) : World σ :=
  ⟨h.resp_start pfx stop w.chan, w.trace ++ [ATCall.resp_start pfx stop]⟩

def call_resp_stop (w : World σ) : World σ :=
  ⟨h.resp_stop w.chan, w.trace ++ [ATCall.resp_stop]⟩

def call_info_resp (w : World σ) : Bool × World σ :=
  ((h.info_resp w.chan).1, ⟨(h.info_resp w.chan).2, w.trace ++ [ATCall.info_resp]⟩)

def call_read_int (w : World σ) : Int × World σ :=
  ((h.read_int w.chan).1, ⟨(h.read_int w.chan).2, w.trace ++ [ATCall.read_int]⟩)

def call_read_string (size : Nat) (w : World σ) : (Int × String) × World σ :=
  ((h.read_string size w.chan).1,
    ⟨(h.read_string size w.chan).2, w.trace ++ [ATCall.read_string size]⟩)

def call_skip_param (w : World σ) : World σ :=
  ⟨h.skip_param w.chan, w.trace ++ [ATCall.skip_param]⟩

def call_write_bytes (data : String) (len : Nat) (w : World σ) : Nat × World σ :=
  ((h.write_bytes data len w.chan).1,
    ⟨(h.write_bytes data len w.chan).2, w.trace ++ [ATCall.write_bytes data len]⟩)

def call_get_last_error (w : World σ) : Int × World σ :=
  (h.get_last_error w.chan, ⟨w.chan, w.trace ++ [ATCall.get_last_error]⟩)

def call_clear_error (w : World σ) : World σ :=
  ⟨h.clear_error w.chan, w.trace ++ [ATCall.clear_error]⟩

def call_flush (w : World σ) : World σ :=
  ⟨h.flush w.chan, w.trace ++ [ATCall.flush]⟩

end calls

/-! ## The service -/

section service
variable {σ : Type} (h : ATHandler σ) (c : Consts)

/-- The `for` loop of `is_ipeasy_context_activated` with `n` iterations left, followed by
the code after the loop. -/
def is_ipeasy_context_activated_loop (context_id : Int) : Nat → World σ → Bool × World σ
  | 0, w =>
    let w := call_resp_stop h w
    let w := call_unlock h w
    (false, w)
  | n + 1, w =>
    let r1 := call_read_int h w
    let current_context_id := r1.1
    let r2 := call_read_int h r1.2
    let current_stat := r2.1
    if current_context_id = context_id then
      let w := call_resp_stop h r2.2
      let w := call_unlock h w
      (decide (current_stat = c.ME310_IPEASY_ACTIVATED_CONTEXT), w)
    else
      is_ipeasy_context_activated_loop context_id n r2.2

/-- Embeds `bool OneEdgeService::is_ipeasy_context_activated(int context_id)`. -/
def is_ipeasy_context_activated (context_id : Int) (w : World σ) : Bool × World σ :=
  let w := call_lock h w
  let w := call_cmd_start_stop h "#SGACT?" "" "" [] w
  let w := call_resp_start h "#SGACT:" false w
  is_ipeasy_context_activated_loop h c context_id c.ME310_CONTEXT_MAX w

/-- Embeds `nsapi_error_t OneEdgeService::activate_ipeasy_context(int context_id)`. -/
def activate_ipeasy_context (context_id : Int) (w : World σ) : Int × World σ :=
  let w := call_lock h w
  let r := call_at_cmd_discard h "#SGACT" "=" "%d%d"
    [ATArg.int context_id, ATArg.int c.ME310_IPEASY_ACTIVATED_CONTEXT] w
  call_unlock_return_error h r.2

/-- Embeds `nsapi_error_t OneEdgeService::lwm2m_client_enable(int context, AckModaliy mode)`. -/
def lwm2m_client_enable (context mode : Int) (w : World σ) : Int × World σ :=
  let w := call_lock h w
  let r := call_at_cmd_discard h "#LWM2MENA" "=" "%d%d%d"
    [ATArg.int c.ONEEDGE_CLIENT_ENABLED, ATArg.int context, ATArg.int mode] w
  call_unlock_return_error h r.2

/-- Embeds `bool OneEdgeService::lwm2m_client_is_enabled()`. -/
def lwm2m_client_is_enabled (w : World σ) : Bool × World σ :=
  let client_state : Int := 0
  let w := call_lock h w
  let r := call_at_cmd_int h "#LWM2MENA" "?" client_state w
  let client_state := r.1.2
  let e := call_unlock_return_error h r.2
  let err := e.1
  if err ≠ c.NSAPI_ERROR_OK then
    (false, e.2)
  else
    (decide (client_state = c.ONEEDGE_CLIENT_ENABLED), e.2)

/-- Embeds `nsapi_error_t OneEdgeService::lwm2m_client_set_battery_level(int battery_level)`. -/
def lwm2m_client_set_battery_level (battery_level : Int) (w : World σ) : Int × World σ :=
  let w := call_lock h w
  let r := call_at_cmd_discard h "#LWM2MSET" "=" "%d%d%d%d%d%d"
    [ATArg.int 0, ATArg.int 3, ATArg.int 0, ATArg.int 9, ATArg.int 0,
      ATArg.int battery_level] w
  call_unlock_return_error h r.2

/-- The `while (at_handler->info_resp())` loop of `file_exists`, followed by the code
after the loop. The loop has no bound of its own: `fuel` bounds the number of times
`info_resp` is called, and `none` means the bound was reached. -/
def file_exists_loop (target_file : String) : Nat → World σ → Option (Bool × World σ)
  | 0, _ => none
  | fuel + 1, w =>
    let i := call_info_resp h w
    if i.1 then
      let r := call_read_string h c.ME310_MAX_FULL_FILE_PATH_LENGTH i.2
      let m2mlist_entry := r.1.2
      if strstr m2mlist_entry target_file then
        let w := call_resp_stop h r.2
        let w := call_unlock h w
        some (true, w)
      else
        file_exists_loop target_file fuel r.2
    else
      let w := call_resp_stop h i.2
      let w := call_unlock h w
      some (false, w)

/-- Embeds `bool OneEdgeService::file_exists(char *target_file)`. -/
def file_exists (fuel : Nat) (target_file : String) (w : World σ) : Option (Bool × World σ) :=
  let w := call_lock h w
  let w := call_cmd_start_stop h "#M2MLIST" "=/XML" "" [] w
  let w := call_resp_start h "#M2MLIST:" false w
  file_exists_loop h c target_file fuel w

/-- The part of `lwm2m_client_enable_temperature_object` after the presence check
(source lines 152 to 183): the upload transaction. -/
def upload_object_3303 (w : World σ) : Bool × World σ :=
  let w := call_lock h w
  let w := call_cmd_start_stop h "#M2MWRITE" "=" "%s%d"
    [ATArg.str "/XML/object_3303.xml", ATArg.int (strlen c.get_object_3303)] w
  let w := call_resp_start h ">>>" true w
  let e := call_get_last_error h w
  if e.1 ≠ c.NSAPI_ERROR_OK then
    let w := call_unlock h e.2
    (false, w)
  else
    let r := call_write_bytes h c.get_object_3303 (strlen c.get_object_3303) e.2
    let write_size : Int := int_of_size_t r.1
    if size_t_of_int write_size < strlen c.get_object_3303 then
      let w := call_unlock h r.2
      (false, w)
    else
      let w := call_resp_start h "\r\nOK" true r.2
      let w := call_resp_stop h w
      let e := call_get_last_error h w
      if e.1 ≠ c.NSAPI_ERROR_OK then
        let w := call_unlock h e.2
        (false, w)
      else
        let w := call_unlock h e.2
        (true, w)

/-- Embeds `bool OneEdgeService::lwm2m_client_enable_temperature_object()`; `fuel` is handed to
the presence check. -/
def lwm2m_client_enable_temperature_object (fuel : Nat) (w : World σ) :
    Option (Bool × World σ) :=
  match file_exists h c fuel "object_3303.xml" w with
  | none => none
  | some (true, w) => some (true, w)
  | some (false, w) => some (upload_object_3303 h c w)

/-- Embeds `bool OneEdgeService::lwm2m_client_create_temperature_object_instance(int instance)`. -/
def lwm2m_client_create_temperature_object_instance (inst : Int) (w : World σ) :
    Bool × World σ :=
  let w := call_lock h w
  let r := call_at_cmd_discard h "#LWM2MR" "=" "%d%d%d%d%d"
    [ATArg.int 0, ATArg.int 3303, ATArg.int inst, ATArg.int 5700, ATArg.int 0] w
  let e := call_get_last_error h r.2
  if e.1 = c.NSAPI_ERROR_OK then
    let w := call_unlock h e.2
    (true, w)
  else
    let w := call_clear_error h e.2
    let w := call_flush h w
    let r := call_at_cmd_discard h "#LWM2MNEWINST" "=" "%d%d%d"
      [ATArg.int 0, ATArg.int 3303, ATArg.int inst] w
    let e := call_unlock_return_error h r.2
    (decide (e.1 = c.NSAPI_ERROR_OK), e.2)

/-- Embeds `nsapi_error_t OneEdgeService::lwm2m_client_send_ack(int action)`. -/
def lwm2m_client_send_ack (action : Int) (w : World σ) : Int × World σ :=
  let w := call_lock h w
  let r := call_at_cmd_discard h "#LWM2MACK" "=" "%d" [ATArg.int action] w
  call_unlock_return_error h r.2

/-- Embeds `void OneEdgeService::urc_lwm2m_tlt()`. Both branches on `err` return. -/
def urc_lwm2m_tlt (w : World σ) : Unit × World σ :=
  let w := call_lock h w
  let r := call_read_string h c.ONEEDGE_CLIENT_STATE_MAX_LENGTH w
  let w := call_skip_param h r.2
  let w := call_skip_param h w
  let e := call_unlock_return_error h w
  if e.1 ≠ c.NSAPI_ERROR_OK then ((), e.2) else ((), e.2)

/-- Embeds `void OneEdgeService::urc_lwm2mring()`. -/
def urc_lwm2mring (w : World σ) : Unit × World σ :=
  let w := call_lock h w
  let r := call_read_string h c.ONEEDGE_CLIENT_STATE_MAX_LENGTH w
  let e := call_unlock_return_error h r.2
  if e.1 ≠ c.NSAPI_ERROR_OK then ((), e.2) else ((), e.2)

/-- Embeds `void OneEdgeService::urc_lwm2mend()`. -/
def urc_lwm2mend (w : World σ) : Unit × World σ :=
  let w := call_lock h w
  let r := call_read_int h w
  let e := call_unlock_return_error h r.2
  if e.1 ≠ c.NSAPI_ERROR_OK then ((), e.2) else ((), e.2)

/-- Embeds `void OneEdgeService::urc_lwm2minfo()`. -/
def urc_lwm2minfo (w : World σ) : Unit × World σ :=
  let w := call_lock h w
  let r1 := call_read_string h c.ONEEDGE_CLIENT_STATE_MAX_LENGTH w
  let r2 := call_read_string h c.ONEEDGE_CLIENT_STATE_MAX_LENGTH r1.2
  let e := call_unlock_return_error h r2.2
  if e.1 ≠ c.NSAPI_ERROR_OK then ((), e.2) else ((), e.2)

end service

/-! ## Lock discipline on traces -/

/-- Is the call an acquisition of the channel lock? -/
def is_acquire : ATCall → Bool
  | ATCall.lock => true
  | _ => false

/-- Is the call a release of the channel lock (`unlock` or `unlock_return_error`)? -/
def is_release : ATCall → Bool
  | ATCall.unlock => true
  | ATCall.unlock_return_error => true
  | _ => false

/-- Number of lock acquisitions in a trace. -/
def acquisitions (t : List ATCall) : Nat := t.countP is_acquire

/-- Number of lock releases in a trace. -/
def releases (t : List ATCall) : Nat := t.countP is_release

/-- Runs a trace against the lock, starting with the lock held or not. The result is
`none` as soon as the lock is acquired while held or released while not held, and
otherwise `some held` with the state of the lock after the last call. -/
def lock_scan : Bool → List ATCall → Option Bool
  | held, [] => some held
  | held, e :: t =>
    if is_acquire e then
      (if held then none else lock_scan true t)
    else if is_release e then
      (if held then lock_scan false t else none)
    else lock_scan held t

/-- Does the trace call `get_last_error` at a moment when the lock is held, given
whether the lock is held at its start? -/
def reads_error_locked : Bool → List ATCall → Bool
  | _, [] => false
  | held, e :: t =>
    if is_acquire e then reads_error_locked true t
    else if is_release e then reads_error_locked false t
    else (held && decide (e = ATCall.get_last_error)) || reads_error_locked held t

/-- The calls `d` made from world `w` to world `w1` are well bracketed: starting with the
lock free, no acquisition happens while it is held, no release while it is free, the lock
is free at the end, and there are as many acquisitions as releases. -/
def Bracketed {σ : Type} (w w1 : World σ) : Prop :=
  ∃ d, w1.trace = w.trace ++ d ∧ lock_scan false d = some false ∧
    acquisitions d = releases d

/-- The calls made from world `w` to world `w1` do not include `get_last_error`; in
particular `get_last_error` is never called while the lock is held. -/
def ErrorReadOnlyUnlocked {σ : Type} (w w1 : World σ) : Prop :=
  ∃ d, w1.trace = w.trace ++ d ∧ ATCall.get_last_error ∉ d ∧
    reads_error_locked false d = false

/-- The calls made from world `w` to world `w1` call `get_last_error` at a moment when
the lock is held. -/
def ReadsErrorWhileLocked {σ : Type} (w w1 : World σ) : Prop :=
  ∃ d, w1.trace = w.trace ++ d ∧ reads_error_locked false d = true

/-- The calls made from world `w` to world `w1` are well bracketed and `get_last_error`
is not among them. -/
def Quiet {σ : Type} (w w1 : World σ) : Prop :=
  ∃ d, w1.trace = w.trace ++ d ∧ lock_scan false d = some false ∧
    ATCall.get_last_error ∉ d

/-- The channel state after the loop of `file_exists` has read `k` more listing lines
into a buffer of `size` bytes. -/
def after_lines {σ : Type} (h : ATHandler σ) (size : Nat) : Nat → σ → σ
  | 0, s => s
  | k + 1, s => after_lines h size k (h.read_string size (h.info_resp s).2).2

/-- The listing is finite: after fewer than `fuel` lines `info_resp` answers false. -/
def listing_ends {σ : Type} (h : ATHandler σ) (size fuel : Nat) (s : σ) : Prop :=
  ∃ k, k < fuel ∧ (h.info_resp (after_lines h size k s)).1 = false

/-- The channel state in which `file_exists` enters its loop, when called in state `s`. -/
def m2mlist_opened {σ : Type} (h : ATHandler σ) (s : σ) : σ :=
  h.resp_start "#M2MLIST:" false (h.cmd_start_stop "#M2MLIST" "=/XML" "" [] (h.lock s))

/-! ## A scripted modem, for evaluation on concrete inputs -/

/-- State of the scripted modem: the integer fields and the listing lines it will still
deliver, its sticky error, and the number of bytes it accepts per raw write. -/
structure Modem where
  ints : List Int
  lines : List String
  last_err : Int
  accept : Nat

/-- The integer fields of a `#SGACT?` listing of (context id, status) pairs, in the order
in which `read_int` delivers them. -/
def sgact_fields : List (Int × Int) → List Int
  | [] => []
  | p :: t => p.1 :: p.2 :: sgact_fields t

/-- What `read_string` leaves in a buffer of `size` bytes: at most `size - 1` characters
and the terminating NUL. -/
def truncate (size : Nat) (s : String) : String := String.mk (s.data.take (size - 1))

/-- Modelled from the spec: a test double of the Command Channel (`ATHandler` is not in
the embedded source). Reads deliver the scripted fields left to right; a read past the end
of the script fails: it returns `failv` and sets the sticky error to `dev_err`.
`info_resp` reports whether a listing line is left, `write_bytes` accepts at most
`accept` bytes, `clear_error` resets the sticky error to `ok`. -/
def scripted (ok failv dev_err : Int) : ATHandler Modem where
  lock := fun m => m
  unlock := fun m => m
  unlock_return_error := fun m => (m.last_err, m)
  cmd_start_stop := fun _ _ _ _ m => m
  at_cmd_discard := fun _ _ _ _ m => (m.last_err, m)
  at_cmd_int := fun _ _ _ m =>
    match m.ints with
    | v :: t => ((m.last_err, v), { m with ints := t })
    | [] => ((dev_err, failv), { m with last_err := dev_err })
  resp_start := fun _ _ m => m
  resp_stop := fun m => m
  info_resp := fun m => (!m.lines.isEmpty, m)
  read_int := fun m =>
    match m.ints with
    | v :: t => (v, { m with ints := t })
    | [] => (failv, { m with last_err := dev_err })
  read_string := fun size m =>
    match m.lines with
    | l :: t => (((strlen (truncate size l) : Nat), truncate size l), { m with lines := t })
    | [] => ((-1, ""), { m with last_err := dev_err })
  skip_param := fun m => m
  write_bytes := fun _ len m => (min len m.accept, m)
  get_last_error := fun m => m.last_err
  clear_error := fun m => { m with last_err := ok }
  flush := fun m => m

/-- The listing lines left unread when the scan of `file_exists` stops at the first line
that contains `name`. -/
def lines_after_first_match (name : String) : List String → List String
  | [] => []
  | l :: t => if strstr l name then t else lines_after_first_match name t

/-- The number of listing lines read when the scan of `file_exists` stops at the first
line that contains `name`. -/
def lines_read (name : String) : List String → Nat
  | [] => 0
  | l :: t => if strstr l name then 1 else lines_read name t + 1

/-- Is the call a raw write of payload bytes? -/
def is_write_bytes : ATCall → Bool
  | ATCall.write_bytes _ _ => true
  | _ => false

/-- Is the call the start of the read of the completion acknowledgement? -/
def is_ack_read : ATCall → Bool
  | ATCall.resp_start pfx _ => pfx == "\r\nOK"
  | _ => false

/-- Is the call a step of the upload: the write-intent command, a raw write, or the read
of the completion acknowledgement? -/
def is_upload_step : ATCall → Bool
  | ATCall.cmd_start_stop cmd _ _ _ => cmd == "#M2MWRITE"
  | e => is_write_bytes e || is_ack_read e

/-- Is the call a create-instance command? -/
def is_newinst : ATCall → Bool
  | ATCall.at_cmd_discard cmd _ _ _ => cmd == "#LWM2MNEWINST"
  | _ => false

/-- Example values of the constants, used only to evaluate the service on concrete
inputs. -/
def example_consts : Consts where
  NSAPI_ERROR_OK := 0
  ME310_CONTEXT_MAX := 6
  ME310_IPEASY_ACTIVATED_CONTEXT := 1
  ONEEDGE_CLIENT_ENABLED := 1
  ME310_MAX_FULL_FILE_PATH_LENGTH := 128
  ONEEDGE_CLIENT_STATE_MAX_LENGTH := 32
  get_object_3303 := "<LWM2M/>"

/-- The scripted modem with the usual codes: `0` for no error, `-1` for a failed
`read_int`, `-3012` for a device error. -/
def example_modem : ATHandler Modem := scripted 0 (-1) (-3012)

/-- A fresh world over the scripted modem. -/
def example_world (ints : List Int) (lines : List String) (last_err : Int) (accept : Nat) :
    World Modem :=
  ⟨⟨ints, lines, last_err, accept⟩, []⟩

/-! ## Channel states and call sequences named in the statements -/

section named
variable {σ : Type} (h : ATHandler σ) (c : Consts)

/-- The handler `h` with the error codes that `at_cmd_discard` and `at_cmd_int` hand back
replaced by the values of `f` and `g`; the effect of every call on the channel state and
every other returned value are those of `h`. -/
def with_command_codes (f : String → String → String → List ATArg → σ → Int)
    (g : String → String → Int → σ → Int) : ATHandler σ :=
  { h with
    at_cmd_discard := fun cmd cmd_chr format args s =>
      (f cmd cmd_chr format args s, (h.at_cmd_discard cmd cmd_chr format args s).2)
    at_cmd_int := fun cmd cmd_chr resp s =>
      ((g cmd cmd_chr resp s, (h.at_cmd_int cmd cmd_chr resp s).1.2),
        (h.at_cmd_int cmd cmd_chr resp s).2) }

/-- The operation `op` makes no use of the error codes that `at_cmd_discard` and
`at_cmd_int` hand back: whatever codes replace them, its outcome (result, channel state
and calls made) is the same. -/
def CodesUnused {β : Type} (op : ATHandler σ → β) : Prop :=
  ∀ f g, op (with_command_codes h f g) = op h

/-- The discard transaction of spec 4.2 as the handler runs it from state `s`: `lock`,
the command, then `unlock_return_error`, whose error code and final state it yields. -/
def discard_transaction (cmd cmd_chr format : String) (args : List ATArg) (s : σ) : Int × σ :=
  h.unlock_return_error (h.at_cmd_discard cmd cmd_chr format args (h.lock s)).2

/-- The result of the query `#LWM2MENA?` of `lwm2m_client_is_enabled`, called in state
`s`: `((error code, client_state), state)`. -/
def enabled_queried (s : σ) : (Int × Int) × σ :=
  h.at_cmd_int "#LWM2MENA" "?" 0 (h.lock s)

/-- The channel state in which the upload transaction reads the error after waiting for
the upload prompt, when the transaction starts in state `s`. -/
def upload_prompted (s : σ) : σ :=
  h.resp_start ">>>" true (h.cmd_start_stop "#M2MWRITE" "=" "%s%d"
    [ATArg.str "/XML/object_3303.xml", ATArg.int (strlen c.get_object_3303)] (h.lock s))

/-- The calls of the upload transaction up to and including the error read that follows
the wait for the upload prompt. -/
def upload_intent_calls : List ATCall :=
  [ATCall.lock,
   ATCall.cmd_start_stop "#M2MWRITE" "=" "%s%d"
     [ATArg.str "/XML/object_3303.xml", ATArg.int (strlen c.get_object_3303)],
   ATCall.resp_start ">>>" true,
   ATCall.get_last_error]

/-- The raw write of the object description. -/
def upload_write_call : ATCall :=
  ATCall.write_bytes c.get_object_3303 (strlen c.get_object_3303)

/-- The read of the completion acknowledgement and the error read that follows it. -/
def upload_ack_calls : List ATCall :=
  [ATCall.resp_start "\r\nOK" true, ATCall.resp_stop, ATCall.get_last_error]

/-- The probe of `lwm2m_client_create_temperature_object_instance`. -/
def probe_call (inst : Int) : ATCall :=
  ATCall.at_cmd_discard "#LWM2MR" "=" "%d%d%d%d%d"
    [ATArg.int 0, ATArg.int 3303, ATArg.int inst, ATArg.int 5700, ATArg.int 0]

/-- The create-instance command of `lwm2m_client_create_temperature_object_instance`. -/
def newinst_call (inst : Int) : ATCall :=
  ATCall.at_cmd_discard "#LWM2MNEWINST" "=" "%d%d%d"
    [ATArg.int 0, ATArg.int 3303, ATArg.int inst]

/-- The channel state in which `lwm2m_client_create_temperature_object_instance` reads
the error after its probe, when called in state `s`. -/
def probed (inst : Int) (s : σ) : σ :=
  (h.at_cmd_discard "#LWM2MR" "=" "%d%d%d%d%d"
    [ATArg.int 0, ATArg.int 3303, ATArg.int inst, ATArg.int 5700, ATArg.int 0]
    (h.lock s)).2

/-- The channel state after the create-instance command, issued after `clear_error` and
`flush`, when the function was called in state `s`. -/
def created (inst : Int) (s : σ) : σ :=
  (h.at_cmd_discard "#LWM2MNEWINST" "=" "%d%d%d"
    [ATArg.int 0, ATArg.int 3303, ATArg.int inst]
    (h.flush (h.clear_error (probed h inst s)))).2

end named

/-! ## General facts about traces -/

theorem lock_scan_append (d1 d2 : List ATCall) (b : Bool) :
    lock_scan b (d1 ++ d2) = (lock_scan b d1).bind (fun b1 => lock_scan b1 d2) := by
  induction d1 generalizing b with
  | nil => simp [lock_scan]
  | cons e t ih =>
    simp only [List.cons_append, lock_scan]
    by_cases ha : is_acquire e = true
    · cases b <;> simp [ha, ih]
    · by_cases hr : is_release e = true
      · cases b <;> simp [ha, hr, ih]
      · simp [ha, hr, ih]

theorem lock_scan_counts (d : List ATCall) (b b1 : Bool) (hs : lock_scan b d = some b1) :
    acquisitions d + b.toNat = releases d + b1.toNat := by
  induction d generalizing b with
  | nil =>
    simp only [lock_scan, Option.some.injEq] at hs
    simp [acquisitions, releases, hs]
  | cons e t ih =>
    have hexcl : is_acquire e = true → is_release e = false := by
      intro ha
      cases e <;> simp_all [is_acquire, is_release]
    simp only [lock_scan] at hs
    simp only [acquisitions, releases] at ih ⊢
    by_cases ha : is_acquire e = true
    · have hr := hexcl ha
      cases b
      · simp only [ha, if_true, Bool.false_eq_true, if_false] at hs
        have := ih true hs
        simp only [Bool.toNat_true, Bool.toNat_false] at this ⊢
        rw [List.countP_cons_of_pos _ _ ha, List.countP_cons_of_neg _ _ (by simp [hr])]
        omega
      · simp [ha] at hs
    · by_cases hr : is_release e = true
      · cases b
        · simp [ha, hr] at hs
        · simp only [ha, hr, if_true, Bool.false_eq_true, if_false] at hs
          have := ih false hs
          simp only [Bool.toNat_true, Bool.toNat_false] at this ⊢
          rw [List.countP_cons_of_neg _ _ ha, List.countP_cons_of_pos _ _ hr]
          omega
      · simp only [ha, hr, Bool.false_eq_true, if_false] at hs
        have := ih b hs
        rw [List.countP_cons_of_neg _ _ ha, List.countP_cons_of_neg _ _ hr]
        exact this

theorem bracketed_of_scan {σ : Type} {w w1 : World σ} (d : List ATCall)
    (ht : w1.trace = w.trace ++ d) (hs : lock_scan false d = some false) :
    Bracketed w w1 :=
  ⟨d, ht, hs, by simpa using lock_scan_counts d false false hs⟩

theorem bracketed_trans {σ : Type} {w w1 w2 : World σ}
    (h1 : Bracketed w w1) (h2 : Bracketed w1 w2) : Bracketed w w2 := by
  obtain ⟨d1, ht1, hs1, _⟩ := h1
  obtain ⟨d2, ht2, hs2, _⟩ := h2
  refine bracketed_of_scan (d1 ++ d2) ?_ ?_
  · rw [ht2, ht1, List.append_assoc]
  · rw [lock_scan_append, hs1]
    simpa using hs2

theorem reads_error_locked_of_not_mem (d : List ATCall) (b : Bool)
    (hd : ATCall.get_last_error ∉ d) : reads_error_locked b d = false := by
  induction d generalizing b with
  | nil => rfl
  | cons e t ih =>
    simp only [List.mem_cons, not_or] at hd
    have he : ¬ e = ATCall.get_last_error := fun h => hd.1 h.symm
    simp only [reads_error_locked]
    split
    · exact ih _ hd.2
    · split
      · exact ih _ hd.2
      · simp [he, ih _ hd.2]

/-! ## The two loops -/

section loops
variable {σ : Type} (h : ATHandler σ) (c : Consts)

theorem is_ipeasy_context_activated_loop_calls (context_id : Int) (n : Nat) (w : World σ) :
    ∃ d, (is_ipeasy_context_activated_loop h c context_id n w).2.trace = w.trace ++ d ∧
      lock_scan true d = some false ∧ ATCall.get_last_error ∉ d := by
  induction n generalizing w with
  | zero =>
    exact ⟨[ATCall.resp_stop, ATCall.unlock],
      by simp [is_ipeasy_context_activated_loop, call_resp_stop, call_unlock], rfl, by simp⟩
  | succ n ih =>
    by_cases hm : (h.read_int w.chan).1 = context_id
    · exact ⟨[ATCall.read_int, ATCall.read_int, ATCall.resp_stop, ATCall.unlock],
        by simp [is_ipeasy_context_activated_loop, hm, call_resp_stop, call_unlock,
          call_read_int], rfl, by simp⟩
    · obtain ⟨d, ht, hs, hg⟩ := ih (call_read_int h (call_read_int h w).2).2
      refine ⟨ATCall.read_int :: ATCall.read_int :: d, ?_, ?_, ?_⟩
      · have hm1 : ¬ (call_read_int h w).1 = context_id := hm
        simp only [is_ipeasy_context_activated_loop, hm1, if_false, ht]
        simp [call_read_int]
      · simpa [lock_scan, is_acquire, is_release] using hs
      · simpa using hg

theorem file_exists_loop_calls (target_file : String) (fuel : Nat) (w : World σ)
    (r : Bool × World σ) (hr : file_exists_loop h c target_file fuel w = some r) :
    ∃ d, r.2.trace = w.trace ++ d ∧ lock_scan true d = some false ∧
      ATCall.get_last_error ∉ d := by
  induction fuel generalizing w with
  | zero => simp [file_exists_loop] at hr
  | succ fuel ih =>
    simp only [file_exists_loop] at hr
    by_cases hi : (call_info_resp h w).1 = true
    · simp only [hi, if_true] at hr
      split at hr
      · simp only [Option.some.injEq] at hr
        subst hr
        exact ⟨[ATCall.info_resp, ATCall.read_string c.ME310_MAX_FULL_FILE_PATH_LENGTH,
          ATCall.resp_stop, ATCall.unlock],
          by simp [call_resp_stop, call_unlock, call_read_string, call_info_resp], rfl,
          by simp⟩
      · obtain ⟨d, ht, hs, hg⟩ := ih _ hr
        refine ⟨ATCall.info_resp ::
          ATCall.read_string c.ME310_MAX_FULL_FILE_PATH_LENGTH :: d, ?_, ?_, ?_⟩
        · rw [ht]
          simp [call_read_string, call_info_resp]
        · simpa [lock_scan, is_acquire, is_release] using hs
        · simpa using hg
    · simp only [hi, Bool.false_eq_true, if_false, Option.some.injEq] at hr
      subst hr
      exact ⟨[ATCall.info_resp, ATCall.resp_stop, ATCall.unlock],
        by simp [call_resp_stop, call_unlock, call_info_resp], rfl, by simp⟩

theorem file_exists_loop_total (target_file : String) (fuel : Nat) (w : World σ)
    (hfin : listing_ends h c.ME310_MAX_FULL_FILE_PATH_LENGTH fuel w.chan) :
    (file_exists_loop h c target_file fuel w).isSome = true := by
  induction fuel generalizing w with
  | zero =>
    obtain ⟨k, hk, _⟩ := hfin
    omega
  | succ fuel ih =>
    obtain ⟨k, hk, hend⟩ := hfin
    simp only [file_exists_loop]
    by_cases hi : (call_info_resp h w).1 = true
    · simp only [hi, if_true]
      split
      · rfl
      · cases k with
        | zero =>
          simp only [after_lines] at hend
          simp [call_info_resp, hend] at hi
        | succ k =>
          apply ih
          exact ⟨k, by omega, by simpa [after_lines, call_read_string, call_info_resp]
            using hend⟩
    · simp [hi]

theorem file_exists_calls (fuel : Nat) (target_file : String) (w : World σ)
    (r : Bool × World σ) (hr : file_exists h c fuel target_file w = some r) :
    ∃ d, r.2.trace = w.trace ++ d ∧ lock_scan false d = some false ∧
      ATCall.get_last_error ∉ d := by
  obtain ⟨d, ht, hs, hg⟩ := file_exists_loop_calls h c target_file fuel _ r hr
  refine ⟨ATCall.lock :: ATCall.cmd_start_stop "#M2MLIST" "=/XML" "" [] ::
    ATCall.resp_start "#M2MLIST:" false :: d, ?_, ?_, ?_⟩
  · rw [ht]
    simp [call_lock, call_cmd_start_stop, call_resp_start]
  · simpa [lock_scan, is_acquire, is_release] using hs
  · simpa using hg

theorem file_exists_loop_no_upload (target_file : String) (fuel : Nat) (w : World σ)
    (r : Bool × World σ) (hr : file_exists_loop h c target_file fuel w = some r) :
    ∃ d, r.2.trace = w.trace ++ d ∧ ∀ e ∈ d, is_upload_step e = false := by
  induction fuel generalizing w with
  | zero => simp [file_exists_loop] at hr
  | succ fuel ih =>
    simp only [file_exists_loop] at hr
    by_cases hi : (call_info_resp h w).1 = true
    · simp only [hi, if_true] at hr
      split at hr
      · simp only [Option.some.injEq] at hr
        subst hr
        exact ⟨[ATCall.info_resp, ATCall.read_string c.ME310_MAX_FULL_FILE_PATH_LENGTH,
          ATCall.resp_stop, ATCall.unlock],
          by simp [call_resp_stop, call_unlock, call_read_string, call_info_resp],
          by simp [is_upload_step, is_write_bytes, is_ack_read]⟩
      · obtain ⟨d, ht, hu⟩ := ih _ hr
        refine ⟨ATCall.info_resp ::
          ATCall.read_string c.ME310_MAX_FULL_FILE_PATH_LENGTH :: d, ?_, ?_⟩
        · rw [ht]
          simp [call_read_string, call_info_resp]
        · intro e he
          simp only [List.mem_cons] at he
          rcases he with he | he | he
          · subst he; rfl
          · subst he; rfl
          · exact hu e he
    · simp only [hi, Bool.false_eq_true, if_false, Option.some.injEq] at hr
      subst hr
      exact ⟨[ATCall.info_resp, ATCall.resp_stop, ATCall.unlock],
        by simp [call_resp_stop, call_unlock, call_info_resp],
        by simp [is_upload_step, is_write_bytes, is_ack_read]⟩

theorem file_exists_no_upload (fuel : Nat) (target_file : String) (w : World σ)
    (r : Bool × World σ) (hr : file_exists h c fuel target_file w = some r) :
    ∃ d, r.2.trace = w.trace ++ d ∧ ∀ e ∈ d, is_upload_step e = false := by
  obtain ⟨d, ht, hu⟩ := file_exists_loop_no_upload h c target_file fuel _ r hr
  refine ⟨ATCall.lock :: ATCall.cmd_start_stop "#M2MLIST" "=/XML" "" [] ::
    ATCall.resp_start "#M2MLIST:" false :: d, ?_, ?_⟩
  · rw [ht]
    simp [call_lock, call_cmd_start_stop, call_resp_start]
  · intro e he
    simp only [List.mem_cons] at he
    rcases he with he | he | he | he
    · subst he; rfl
    · subst he; decide
    · subst he; decide
    · exact hu e he

theorem file_exists_total (fuel : Nat) (target_file : String) (w : World σ)
    (hfin : listing_ends h c.ME310_MAX_FULL_FILE_PATH_LENGTH fuel (m2mlist_opened h w.chan)) :
    (file_exists h c fuel target_file w).isSome = true :=
  file_exists_loop_total h c target_file fuel _ hfin

theorem size_t_of_int_of_size_t (n : Nat) : size_t_of_int (int_of_size_t n) = n % 2 ^ 32 := by
  unfold size_t_of_int int_of_size_t
  split <;> omega

theorem upload_prompt_error (w : World σ)
    (herr : h.get_last_error (upload_prompted h c w.chan) ≠ c.NSAPI_ERROR_OK) :
    upload_object_3303 h c w =
      (false, ⟨h.unlock (upload_prompted h c w.chan),
        w.trace ++ (upload_intent_calls c ++ [ATCall.unlock])⟩) := by
  simp only [upload_prompted] at herr
  simp only [upload_object_3303, upload_prompted, upload_intent_calls, call_lock,
    call_cmd_start_stop, call_resp_start, call_get_last_error, call_unlock, List.append_assoc,
    List.cons_append, List.nil_append, ne_eq, herr, not_false_eq_true, if_true]

theorem upload_short_write (w : World σ)
    (hok : h.get_last_error (upload_prompted h c w.chan) = c.NSAPI_ERROR_OK)
    (hshort : (h.write_bytes c.get_object_3303 (strlen c.get_object_3303)
      (upload_prompted h c w.chan)).1 % 2 ^ 32 < strlen c.get_object_3303) :
    upload_object_3303 h c w =
      (false, ⟨h.unlock (h.write_bytes c.get_object_3303 (strlen c.get_object_3303)
          (upload_prompted h c w.chan)).2,
        w.trace ++ (upload_intent_calls c ++ [upload_write_call c, ATCall.unlock])⟩) := by
  simp only [upload_prompted] at hok hshort
  simp only [upload_object_3303, upload_prompted, upload_intent_calls, upload_write_call,
    call_lock, call_cmd_start_stop, call_resp_start, call_get_last_error, call_unlock,
    call_write_bytes, List.append_assoc, List.cons_append, List.nil_append, ne_eq, hok,
    not_true_eq_false, if_false, size_t_of_int_of_size_t, hshort, if_true]

theorem upload_full_write (w : World σ)
    (hok : h.get_last_error (upload_prompted h c w.chan) = c.NSAPI_ERROR_OK)
    (hfull : ¬ (h.write_bytes c.get_object_3303 (strlen c.get_object_3303)
      (upload_prompted h c w.chan)).1 % 2 ^ 32 < strlen c.get_object_3303) :
    (upload_object_3303 h c w).2.trace =
      w.trace ++ (upload_intent_calls c ++ upload_write_call c ::
        (upload_ack_calls ++ [ATCall.unlock])) := by
  simp only [upload_prompted] at hok hfull
  simp only [upload_object_3303, upload_prompted, upload_intent_calls, upload_write_call,
    upload_ack_calls, call_lock, call_cmd_start_stop, call_resp_start, call_get_last_error,
    call_unlock, call_write_bytes, call_resp_stop, List.append_assoc, List.cons_append,
    List.nil_append, ne_eq, hok, not_true_eq_false, if_false, size_t_of_int_of_size_t, hfull]
  split <;> rfl

theorem upload_object_3303_calls (w : World σ) :
    ∃ d, (upload_object_3303 h c w).2.trace = w.trace ++ d ∧
      lock_scan false d = some false ∧ reads_error_locked false d = true := by
  by_cases h1 : h.get_last_error (upload_prompted h c w.chan) = c.NSAPI_ERROR_OK
  · by_cases h2 : (h.write_bytes c.get_object_3303 (strlen c.get_object_3303)
        (upload_prompted h c w.chan)).1 % 2 ^ 32 < strlen c.get_object_3303
    · refine ⟨_, by rw [upload_short_write h c w h1 h2], ?_, ?_⟩ <;> rfl
    · refine ⟨_, upload_full_write h c w h1 h2, ?_, ?_⟩ <;> rfl
  · refine ⟨_, by rw [upload_prompt_error h c w h1], ?_, ?_⟩ <;> rfl

theorem is_ipeasy_context_activated_loop_codes
    (f : String → String → String → List ATArg → σ → Int)
    (g : String → String → Int → σ → Int) (context_id : Int) (n : Nat) (w : World σ) :
    is_ipeasy_context_activated_loop (with_command_codes h f g) c context_id n w =
      is_ipeasy_context_activated_loop h c context_id n w := by
  induction n generalizing w with
  | zero => rfl
  | succ n ih =>
    simp only [is_ipeasy_context_activated_loop, ih]
    rfl

theorem file_exists_loop_codes
    (f : String → String → String → List ATArg → σ → Int)
    (g : String → String → Int → σ → Int) (target_file : String) (fuel : Nat)
    (w : World σ) :
    file_exists_loop (with_command_codes h f g) c target_file fuel w =
      file_exists_loop h c target_file fuel w := by
  induction fuel generalizing w with
  | zero => rfl
  | succ fuel ih =>
    simp only [file_exists_loop, ih]
    rfl

theorem quiet_bracketed {w w1 : World σ} (hq : Quiet w w1) : Bracketed w w1 := by
  obtain ⟨d, ht, hs, _⟩ := hq
  exact bracketed_of_scan d ht hs

theorem quiet_unlocked {w w1 : World σ} (hq : Quiet w w1) : ErrorReadOnlyUnlocked w w1 := by
  obtain ⟨d, ht, _, hg⟩ := hq
  exact ⟨d, ht, hg, reads_error_locked_of_not_mem d false hg⟩

theorem is_ipeasy_context_activated_quiet (context_id : Int) (w : World σ) :
    Quiet w (is_ipeasy_context_activated h c context_id w).2 := by
  obtain ⟨d, ht, hs, hg⟩ := is_ipeasy_context_activated_loop_calls h c context_id
    c.ME310_CONTEXT_MAX (call_resp_start h "#SGACT:" false
      (call_cmd_start_stop h "#SGACT?" "" "" [] (call_lock h w)))
  refine ⟨ATCall.lock :: ATCall.cmd_start_stop "#SGACT?" "" "" [] ::
    ATCall.resp_start "#SGACT:" false :: d, ?_, ?_, ?_⟩
  · simp only [is_ipeasy_context_activated, ht]
    simp [call_lock, call_cmd_start_stop, call_resp_start]
  · simpa [lock_scan, is_acquire, is_release] using hs
  · simpa using hg

theorem activate_ipeasy_context_quiet (context_id : Int) (w : World σ) :
    Quiet w (activate_ipeasy_context h c context_id w).2 :=
  ⟨[ATCall.lock, ATCall.at_cmd_discard "#SGACT" "=" "%d%d"
      [ATArg.int context_id, ATArg.int c.ME310_IPEASY_ACTIVATED_CONTEXT],
    ATCall.unlock_return_error],
    by simp [activate_ipeasy_context, call_lock, call_at_cmd_discard,
      call_unlock_return_error], rfl, by simp⟩

theorem lwm2m_client_enable_quiet (context mode : Int) (w : World σ) :
    Quiet w (lwm2m_client_enable h c context mode w).2 :=
  ⟨[ATCall.lock, ATCall.at_cmd_discard "#LWM2MENA" "=" "%d%d%d"
      [ATArg.int c.ONEEDGE_CLIENT_ENABLED, ATArg.int context, ATArg.int mode],
    ATCall.unlock_return_error],
    by simp [lwm2m_client_enable, call_lock, call_at_cmd_discard,
      call_unlock_return_error], rfl, by simp⟩

theorem lwm2m_client_is_enabled_quiet (w : World σ) :
    Quiet w (lwm2m_client_is_enabled h c w).2 := by
  refine ⟨[ATCall.lock, ATCall.at_cmd_int "#LWM2MENA" "?", ATCall.unlock_return_error],
    ?_, rfl, by simp⟩
  simp only [lwm2m_client_is_enabled]
  split <;> simp [call_lock, call_at_cmd_int, call_unlock_return_error]

theorem lwm2m_client_set_battery_level_quiet (battery_level : Int) (w : World σ) :
    Quiet w (lwm2m_client_set_battery_level h battery_level w).2 :=
  ⟨[ATCall.lock, ATCall.at_cmd_discard "#LWM2MSET" "=" "%d%d%d%d%d%d"
      [ATArg.int 0, ATArg.int 3, ATArg.int 0, ATArg.int 9, ATArg.int 0,
        ATArg.int battery_level],
    ATCall.unlock_return_error],
    by simp [lwm2m_client_set_battery_level, call_lock, call_at_cmd_discard,
      call_unlock_return_error], rfl, by simp⟩

theorem file_exists_quiet (fuel : Nat) (target_file : String) (w : World σ)
    (r : Bool × World σ) (hr : file_exists h c fuel target_file w = some r) :
    Quiet w r.2 :=
  file_exists_calls h c fuel target_file w r hr

theorem lwm2m_client_send_ack_quiet (action : Int) (w : World σ) :
    Quiet w (lwm2m_client_send_ack h action w).2 :=
  ⟨[ATCall.lock, ATCall.at_cmd_discard "#LWM2MACK" "=" "%d" [ATArg.int action],
    ATCall.unlock_return_error],
    by simp [lwm2m_client_send_ack, call_lock, call_at_cmd_discard,
      call_unlock_return_error], rfl, by simp⟩

theorem urc_lwm2m_tlt_quiet (w : World σ) : Quiet w (urc_lwm2m_tlt h c w).2 :=
  ⟨[ATCall.lock, ATCall.read_string c.ONEEDGE_CLIENT_STATE_MAX_LENGTH, ATCall.skip_param,
    ATCall.skip_param, ATCall.unlock_return_error],
    by simp [urc_lwm2m_tlt, call_lock, call_read_string, call_skip_param,
      call_unlock_return_error], rfl, by simp⟩

theorem urc_lwm2mring_quiet (w : World σ) : Quiet w (urc_lwm2mring h c w).2 :=
  ⟨[ATCall.lock, ATCall.read_string c.ONEEDGE_CLIENT_STATE_MAX_LENGTH,
    ATCall.unlock_return_error],
    by simp [urc_lwm2mring, call_lock, call_read_string, call_unlock_return_error],
    rfl, by simp⟩

theorem urc_lwm2mend_quiet (w : World σ) : Quiet w (urc_lwm2mend h c w).2 :=
  ⟨[ATCall.lock, ATCall.read_int, ATCall.unlock_return_error],
    by simp [urc_lwm2mend, call_lock, call_read_int, call_unlock_return_error],
    rfl, by simp⟩

theorem urc_lwm2minfo_quiet (w : World σ) : Quiet w (urc_lwm2minfo h c w).2 :=
  ⟨[ATCall.lock, ATCall.read_string c.ONEEDGE_CLIENT_STATE_MAX_LENGTH,
    ATCall.read_string c.ONEEDGE_CLIENT_STATE_MAX_LENGTH, ATCall.unlock_return_error],
    by simp [urc_lwm2minfo, call_lock, call_read_string, call_unlock_return_error],
    rfl, by simp⟩

theorem create_instance_probe_ok (inst : Int) (w : World σ)
    (hok : h.get_last_error (probed h inst w.chan) = c.NSAPI_ERROR_OK) :
    lwm2m_client_create_temperature_object_instance h c inst w =
      (true, ⟨h.unlock (probed h inst w.chan),
        w.trace ++ [ATCall.lock, probe_call inst, ATCall.get_last_error, ATCall.unlock]⟩) := by
  simp only [probed] at hok
  simp only [lwm2m_client_create_temperature_object_instance, probed, probe_call, call_lock,
    call_at_cmd_discard, call_get_last_error, call_unlock, hok, if_true, List.append_assoc,
    List.cons_append, List.nil_append]

theorem create_instance_probe_failed (inst : Int) (w : World σ)
    (herr : h.get_last_error (probed h inst w.chan) ≠ c.NSAPI_ERROR_OK) :
    lwm2m_client_create_temperature_object_instance h c inst w =
      (decide ((h.unlock_return_error (created h inst w.chan)).1 = c.NSAPI_ERROR_OK),
        ⟨(h.unlock_return_error (created h inst w.chan)).2,
          w.trace ++ [ATCall.lock, probe_call inst, ATCall.get_last_error,
            ATCall.clear_error, ATCall.flush, newinst_call inst,
            ATCall.unlock_return_error]⟩) := by
  simp only [probed] at herr
  simp only [lwm2m_client_create_temperature_object_instance, created, probed, probe_call,
    newinst_call, call_lock, call_at_cmd_discard, call_get_last_error, call_unlock,
    call_clear_error, call_flush, call_unlock_return_error, herr, if_false,
    List.append_assoc, List.cons_append, List.nil_append]

theorem create_instance_calls (inst : Int) (w : World σ) :
    ∃ d, (lwm2m_client_create_temperature_object_instance h c inst w).2.trace = w.trace ++ d ∧
      lock_scan false d = some false ∧ reads_error_locked false d = true := by
  by_cases h1 : h.get_last_error (probed h inst w.chan) = c.NSAPI_ERROR_OK
  · refine ⟨_, by rw [create_instance_probe_ok h c inst w h1], ?_, ?_⟩ <;> rfl
  · refine ⟨_, by rw [create_instance_probe_failed h c inst w h1], ?_, ?_⟩ <;> rfl

theorem enable_temperature_object_bracketed (fuel : Nat) (w : World σ)
    (r : Bool × World σ) (hr : lwm2m_client_enable_temperature_object h c fuel w = some r) :
    Bracketed w r.2 := by
  unfold lwm2m_client_enable_temperature_object at hr
  split at hr
  · simp at hr
  · next w1 hf =>
    simp only [Option.some.injEq] at hr
    subst hr
    exact quiet_bracketed (file_exists_quiet h c fuel _ w _ hf)
  · next w1 hf =>
    simp only [Option.some.injEq] at hr
    subst hr
    obtain ⟨d, ht, hs, _⟩ := upload_object_3303_calls h c w1
    exact bracketed_trans (quiet_bracketed (file_exists_quiet h c fuel _ w _ hf))
      (bracketed_of_scan d ht hs)

theorem enable_temperature_object_total (fuel : Nat) (w : World σ)
    (hfin : listing_ends h c.ME310_MAX_FULL_FILE_PATH_LENGTH fuel (m2mlist_opened h w.chan)) :
    (lwm2m_client_enable_temperature_object h c fuel w).isSome = true := by
  have ht := file_exists_total h c fuel "object_3303.xml" w hfin
  unfold lwm2m_client_enable_temperature_object
  split
  · next hf => simp [hf] at ht
  · rfl
  · rfl

end loops

/-! ## The service against the scripted modem -/

section scripted_modem
variable (ok failv dev_err : Int) (c : Consts)

theorem scripted_sgact_absent (context_id : Int)
    (hfail : failv ≠ c.ME310_IPEASY_ACTIVATED_CONTEXT) (n : Nat) (listing : List (Int × Int))
    (lines : List String) (err : Int) (acc : Nat) (t : List ATCall)
    (habs : ∀ p ∈ listing, p.1 ≠ context_id) :
    (is_ipeasy_context_activated_loop (scripted ok failv dev_err) c context_id n
      ⟨⟨sgact_fields listing, lines, err, acc⟩, t⟩).1 = false := by
  induction n generalizing listing err t with
  | zero => rfl
  | succ n ih =>
    cases listing with
    | nil =>
      by_cases hm : failv = context_id
      · subst hm
        simp [is_ipeasy_context_activated_loop, call_read_int, scripted, sgact_fields, hfail]
      · have := ih [] dev_err (t ++ [ATCall.read_int] ++ [ATCall.read_int]) (by simp)
        simpa [is_ipeasy_context_activated_loop, call_read_int, scripted, sgact_fields, hm]
          using this
    | cons p rest =>
      have hp : p.1 ≠ context_id := habs p (by simp)
      have := ih rest err (t ++ [ATCall.read_int] ++ [ATCall.read_int])
        (fun q hq => habs q (by simp [hq]))
      simpa [is_ipeasy_context_activated_loop, call_read_int, scripted, sgact_fields, hp]
        using this

theorem scripted_sgact_first_match (context_id : Int) (n : Nat) (pre post : List (Int × Int))
    (lines : List String) (err : Int) (acc : Nat) (t : List ATCall)
    (habs : ∀ p ∈ pre, p.1 ≠ context_id) (hlen : pre.length < n) :
    is_ipeasy_context_activated_loop (scripted ok failv dev_err) c context_id n
      ⟨⟨sgact_fields (pre ++ (context_id, c.ME310_IPEASY_ACTIVATED_CONTEXT) :: post),
        lines, err, acc⟩, t⟩ =
    (true, ⟨⟨sgact_fields post, lines, err, acc⟩,
      t ++ (List.replicate (2 * (pre.length + 1)) ATCall.read_int ++
        [ATCall.resp_stop, ATCall.unlock])⟩) := by
  induction n generalizing pre t with
  | zero => omega
  | succ n ih =>
    cases pre with
    | nil =>
      simp [is_ipeasy_context_activated_loop, call_read_int, call_resp_stop, call_unlock,
        scripted, sgact_fields, List.replicate]
    | cons p rest =>
      have hp : p.1 ≠ context_id := habs p (by simp)
      have := ih rest (t ++ [ATCall.read_int] ++ [ATCall.read_int])
        (fun q hq => habs q (by simp [hq])) (by simpa using hlen)
      have h2 : 2 * (rest.length + 1 + 1) = 2 * (rest.length + 1) + 1 + 1 := by ring
      simp only [List.cons_append, sgact_fields, is_ipeasy_context_activated_loop,
        call_read_int, scripted, hp, if_false, List.length_cons, h2, List.replicate_succ]
      simpa [List.replicate_succ] using this

theorem starts_with_iff (hay needle : List Char) :
    starts_with hay needle = true ↔ needle <+: hay := by
  induction hay generalizing needle with
  | nil => cases needle <;> simp [starts_with]
  | cons a hay ih =>
    cases needle with
    | nil => simp [starts_with]
    | cons b needle =>
      simp only [starts_with, Bool.and_eq_true, beq_iff_eq, ih, List.cons_prefix_cons]
      constructor
      · rintro ⟨h1, h2⟩
        exact ⟨h1.symm, h2⟩
      · rintro ⟨h1, h2⟩
        exact ⟨h1.symm, h2⟩

theorem occurs_in_iff (hay needle : List Char) :
    occurs_in hay needle = true ↔ needle <:+: hay := by
  induction hay with
  | nil => simp [occurs_in, starts_with_iff]
  | cons a hay ih =>
    simp only [occurs_in, Bool.or_eq_true, starts_with_iff, ih, List.infix_cons_iff]

theorem strstr_iff (hay needle : String) :
    strstr hay needle = true ↔ needle.data <:+: hay.data :=
  occurs_in_iff hay.data needle.data

theorem truncate_fits (size : Nat) (l : String) (hfit : strlen l < size) :
    truncate size l = l := by
  unfold truncate
  rw [List.take_of_length_le (by unfold strlen at hfit; omega)]

theorem scripted_info_resp (m : Modem) :
    (scripted ok failv dev_err).info_resp m = (!m.lines.isEmpty, m) := rfl

theorem scripted_read_string_cons (size : Nat) (ints : List Int) (l : String)
    (rest : List String) (err : Int) (acc : Nat) :
    (scripted ok failv dev_err).read_string size ⟨ints, l :: rest, err, acc⟩ =
      ((((strlen (truncate size l) : Nat) : Int), truncate size l),
        (⟨ints, rest, err, acc⟩ : Modem)) := rfl

theorem scripted_m2mlist_scan (name : String) (lines : List String) (fuel : Nat)
    (ints : List Int) (err : Int) (acc : Nat) (t : List ATCall)
    (hfuel : lines.length < fuel)
    (hfit : ∀ l ∈ lines, strlen l < c.ME310_MAX_FULL_FILE_PATH_LENGTH) :
    ∃ d, file_exists_loop (scripted ok failv dev_err) c name fuel
        ⟨⟨ints, lines, err, acc⟩, t⟩ =
      some (lines.any (fun l => strstr l name),
        ⟨⟨ints, lines_after_first_match name lines, err, acc⟩, t ++ d⟩) ∧
      d.count (ATCall.read_string c.ME310_MAX_FULL_FILE_PATH_LENGTH) =
        lines_read name lines := by
  induction fuel generalizing lines t with
  | zero => omega
  | succ fuel ih =>
    cases lines with
    | nil =>
      exact ⟨[ATCall.info_resp, ATCall.resp_stop, ATCall.unlock],
        by simp [file_exists_loop, call_info_resp, call_resp_stop, call_unlock, scripted,
          lines_after_first_match], by simp [lines_read]⟩
    | cons l rest =>
      have hl : truncate c.ME310_MAX_FULL_FILE_PATH_LENGTH l = l :=
        truncate_fits _ l (hfit l (by simp))
      by_cases hm : strstr l name = true
      · exact ⟨[ATCall.info_resp, ATCall.read_string c.ME310_MAX_FULL_FILE_PATH_LENGTH,
          ATCall.resp_stop, ATCall.unlock],
          by simp [file_exists_loop, call_info_resp, call_read_string, call_resp_stop,
            call_unlock, scripted, lines_after_first_match, hl, hm],
          by simp [lines_read, hm]⟩
      · obtain ⟨d, hd, hc⟩ := ih rest
          (t ++ [ATCall.info_resp] ++ [ATCall.read_string c.ME310_MAX_FULL_FILE_PATH_LENGTH])
          (by simpa using hfuel) (fun q hq => hfit q (by simp [hq]))
        refine ⟨ATCall.info_resp ::
          ATCall.read_string c.ME310_MAX_FULL_FILE_PATH_LENGTH :: d, ?_, ?_⟩
        · simp only [List.append_assoc, List.singleton_append] at hd
          simp only [file_exists_loop, call_info_resp, call_read_string, scripted_info_resp,
            scripted_read_string_cons, List.append_assoc, List.singleton_append,
            List.isEmpty_cons, Bool.not_false, if_true, hl, hm, Bool.false_eq_true, if_false,
            hd, lines_after_first_match, List.any_cons, Bool.false_or, List.cons_append,
            List.nil_append]
        · simp [lines_read, hm, hc]

end scripted_modem

theorem scripted_sgact_run (c : Consts) (ok failv dev_err : Int)
    (pre post : List (Int × Int)) (context_id : Int) (lines : List String) (err : Int)
    (acc : Nat) (t : List ATCall)
    (habs : ∀ p ∈ pre, p.1 ≠ context_id) (hlen : pre.length < c.ME310_CONTEXT_MAX) :
    is_ipeasy_context_activated (scripted ok failv dev_err) c context_id
        ⟨⟨sgact_fields (pre ++ (context_id, c.ME310_IPEASY_ACTIVATED_CONTEXT) :: post),
          lines, err, acc⟩, t⟩ =
      (true, ⟨⟨sgact_fields post, lines, err, acc⟩,
        t ++ ([ATCall.lock, ATCall.cmd_start_stop "#SGACT?" "" "" [],
            ATCall.resp_start "#SGACT:" false] ++
          (List.replicate (2 * (pre.length + 1)) ATCall.read_int ++
            [ATCall.resp_stop, ATCall.unlock]))⟩) ∧
    List.count ATCall.read_int ([ATCall.lock, ATCall.cmd_start_stop "#SGACT?" "" "" [],
            ATCall.resp_start "#SGACT:" false] ++
          (List.replicate (2 * (pre.length + 1)) ATCall.read_int ++
            [ATCall.resp_stop, ATCall.unlock])) = 2 * (pre.length + 1) := by
  constructor
  · have := scripted_sgact_first_match ok failv dev_err c context_id c.ME310_CONTEXT_MAX
      pre post lines err acc (t ++ [ATCall.lock] ++ [ATCall.cmd_start_stop "#SGACT?" "" "" []]
        ++ [ATCall.resp_start "#SGACT:" false]) habs hlen
    simp only [is_ipeasy_context_activated, call_lock, call_cmd_start_stop, call_resp_start]
    rw [show (scripted ok failv dev_err).resp_start "#SGACT:" false
        ((scripted ok failv dev_err).cmd_start_stop "#SGACT?" "" "" []
          ((scripted ok failv dev_err).lock
            ⟨sgact_fields (pre ++ (context_id, c.ME310_IPEASY_ACTIVATED_CONTEXT) :: post),
              lines, err, acc⟩)) =
        ⟨sgact_fields (pre ++ (context_id, c.ME310_IPEASY_ACTIVATED_CONTEXT) :: post),
          lines, err, acc⟩ from rfl]
    rw [this]
    simp
  · simp [List.count_replicate]

/-! ## Properties of the service -/

section properties
variable {σ : Type}

/-- C1: for every channel and every state, the calls each operation makes are well
bracketed: the lock is never acquired while held, never released while free, it is free
when the operation returns, and acquisitions equal releases. For `file_exists` and
`lwm2m_client_enable_temperature_object`, whose listing loop is unbounded, this holds
for every run that returns, and every run over a finite listing returns. -/
theorem lock_well_bracketed (h : ATHandler σ) (c : Consts) (w : World σ) :
    (∀ context_id, Bracketed w (is_ipeasy_context_activated h c context_id w).2) ∧
    (∀ context_id, Bracketed w (activate_ipeasy_context h c context_id w).2) ∧
    (∀ context mode, Bracketed w (lwm2m_client_enable h c context mode w).2) ∧
    Bracketed w (lwm2m_client_is_enabled h c w).2 ∧
    (∀ battery_level, Bracketed w (lwm2m_client_set_battery_level h battery_level w).2) ∧
    (∀ fuel target_file r, file_exists h c fuel target_file w = some r → Bracketed w r.2) ∧
    (∀ fuel target_file,
      listing_ends h c.ME310_MAX_FULL_FILE_PATH_LENGTH fuel (m2mlist_opened h w.chan) →
      (file_exists h c fuel target_file w).isSome = true) ∧
    (∀ fuel r, lwm2m_client_enable_temperature_object h c fuel w = some r →
      Bracketed w r.2) ∧
    (∀ fuel,
      listing_ends h c.ME310_MAX_FULL_FILE_PATH_LENGTH fuel (m2mlist_opened h w.chan) →
      (lwm2m_client_enable_temperature_object h c fuel w).isSome = true) ∧
    (∀ inst, Bracketed w (lwm2m_client_create_temperature_object_instance h c inst w).2) ∧
    (∀ action, Bracketed w (lwm2m_client_send_ack h action w).2) ∧
    Bracketed w (urc_lwm2m_tlt h c w).2 ∧
    Bracketed w (urc_lwm2mring h c w).2 ∧
    Bracketed w (urc_lwm2mend h c w).2 ∧
    Bracketed w (urc_lwm2minfo h c w).2 := by
  refine ⟨?_, ?_, ?_, ?_, ?_, ?_, ?_, ?_, ?_, ?_, ?_, ?_, ?_, ?_, ?_⟩
  · exact fun context_id => quiet_bracketed (is_ipeasy_context_activated_quiet h c context_id w)
  · exact fun context_id => quiet_bracketed (activate_ipeasy_context_quiet h c context_id w)
  · exact fun context mode => quiet_bracketed (lwm2m_client_enable_quiet h c context mode w)
  · exact quiet_bracketed (lwm2m_client_is_enabled_quiet h c w)
  · exact fun level => quiet_bracketed (lwm2m_client_set_battery_level_quiet h level w)
  · exact fun fuel name r hr => quiet_bracketed (file_exists_quiet h c fuel name w r hr)
  · exact fun fuel name hfin => file_exists_total h c fuel name w hfin
  · exact fun fuel r hr => enable_temperature_object_bracketed h c fuel w r hr
  · exact fun fuel hfin => enable_temperature_object_total h c fuel w hfin
  · intro inst
    obtain ⟨d, ht, hs, _⟩ := create_instance_calls h c inst w
    exact bracketed_of_scan d ht hs
  · exact fun action => quiet_bracketed (lwm2m_client_send_ack_quiet h action w)
  · exact quiet_bracketed (urc_lwm2m_tlt_quiet h c w)
  · exact quiet_bracketed (urc_lwm2mring_quiet h c w)
  · exact quiet_bracketed (urc_lwm2mend_quiet h c w)
  · exact quiet_bracketed (urc_lwm2minfo_quiet h c w)

/-- Witness of C1: the upload run of `lwm2m_client_enable_temperature_object` against a
modem whose listing has one other file returns, and its calls are well bracketed. -/
theorem lock_well_bracketed_witness :
    ∃ r, lwm2m_client_enable_temperature_object example_modem example_consts 2
        (example_world [] ["a.xml"] 0 8) = some r ∧
      Bracketed (example_world [] ["a.xml"] 0 8) r.2 :=
  ⟨_, rfl, (lock_well_bracketed example_modem example_consts
    (example_world [] ["a.xml"] 0 8)).2.2.2.2.2.2.2.1 2 _ rfl⟩

/-- C2: against a `#SGACT?` listing of (context id, status) pairs in which `context_id`
does not occur as an id, `is_ipeasy_context_activated` returns false, whatever the length
of the listing: reads past its end fail and yield `failv`, the failure value of
`read_int`, which is not the activated sentinel. -/
theorem is_ipeasy_context_activated_absent (c : Consts) (ok failv dev_err : Int)
    (listing : List (Int × Int)) (context_id : Int) (lines : List String) (err : Int)
    (acc : Nat) (t : List ATCall)
    (hfail : failv ≠ c.ME310_IPEASY_ACTIVATED_CONTEXT)
    (habs : ∀ p ∈ listing, p.1 ≠ context_id) :
    (is_ipeasy_context_activated (scripted ok failv dev_err) c context_id
      ⟨⟨sgact_fields listing, lines, err, acc⟩, t⟩).1 = false :=
  scripted_sgact_absent ok failv dev_err c context_id hfail _ listing lines err acc _ habs

/-- Witness of C2: context 3 against the two-line listing `1,1` and `2,0`. -/
theorem is_ipeasy_context_activated_absent_witness :
    (is_ipeasy_context_activated (scripted 0 (-1) (-3012)) example_consts 3
      ⟨⟨sgact_fields [(1, 1), (2, 0)], [], 0, 0⟩, []⟩).1 = false :=
  is_ipeasy_context_activated_absent example_consts 0 (-1) (-3012) [(1, 1), (2, 0)] 3 [] 0 0 []
    (by decide) (by decide)

/-- C3: against a `#SGACT?` listing (one pair per context id, at most
`ME310_CONTEXT_MAX` pairs) in which `context_id` is present with the activated status,
`is_ipeasy_context_activated` returns true, and it returns at that pair: when the pair
is number `k = pre.length`, counted from 0, it makes exactly `2 * (k + 1)` integer
reads, followed only by `resp_stop` and `unlock`; the pairs after it are left unread. -/
theorem is_ipeasy_context_activated_present (c : Consts) (ok failv dev_err : Int)
    (listing : List (Int × Int)) (context_id : Int) (lines : List String) (err : Int)
    (acc : Nat) (t : List ATCall)
    (hdistinct : (listing.map Prod.fst).Nodup)
    (hlen : listing.length ≤ c.ME310_CONTEXT_MAX)
    (hmem : (context_id, c.ME310_IPEASY_ACTIVATED_CONTEXT) ∈ listing) :
    ∃ pre post, listing = pre ++ (context_id, c.ME310_IPEASY_ACTIVATED_CONTEXT) :: post ∧
      is_ipeasy_context_activated (scripted ok failv dev_err) c context_id
          ⟨⟨sgact_fields listing, lines, err, acc⟩, t⟩ =
        (true, ⟨⟨sgact_fields post, lines, err, acc⟩,
          t ++ ([ATCall.lock, ATCall.cmd_start_stop "#SGACT?" "" "" [],
              ATCall.resp_start "#SGACT:" false] ++
            (List.replicate (2 * (pre.length + 1)) ATCall.read_int ++
              [ATCall.resp_stop, ATCall.unlock]))⟩) ∧
      List.count ATCall.read_int ([ATCall.lock, ATCall.cmd_start_stop "#SGACT?" "" "" [],
              ATCall.resp_start "#SGACT:" false] ++
            (List.replicate (2 * (pre.length + 1)) ATCall.read_int ++
              [ATCall.resp_stop, ATCall.unlock])) = 2 * (pre.length + 1) := by
  obtain ⟨pre, post, hsplit⟩ := List.append_of_mem hmem
  subst hsplit
  have hnd : (context_id :: (pre.map Prod.fst ++ post.map Prod.fst)).Nodup := by
    have := hdistinct
    simp only [List.map_append, List.map_cons] at this
    exact List.nodup_middle.mp this
  have habs : ∀ p ∈ pre, p.1 ≠ context_id := by
    intro p hp heq
    have hnot := (List.nodup_cons.mp hnd).1
    apply hnot
    rw [← heq]
    exact List.mem_append_left _ (List.mem_map_of_mem Prod.fst hp)
  have hk : pre.length < c.ME310_CONTEXT_MAX := by
    simp only [List.length_append, List.length_cons] at hlen
    omega
  obtain ⟨hrun, hcount⟩ := scripted_sgact_run c ok failv dev_err pre post context_id lines
    err acc t habs hk
  exact ⟨pre, post, rfl, hrun, hcount⟩

/-- Witness of C3: context 2 against the listing `1,0`, `2,1`, `3,1`. -/
theorem is_ipeasy_context_activated_present_witness :
    (is_ipeasy_context_activated (scripted 0 (-1) (-3012)) example_consts 2
      ⟨⟨sgact_fields [(1, 0), (2, 1), (3, 1)], [], 0, 0⟩, []⟩).1 = true := by
  obtain ⟨pre, post, _, hrun, _⟩ := is_ipeasy_context_activated_present example_consts 0
    (-1) (-3012) [(1, 0), (2, 1), (3, 1)] 2 [] 0 0 [] (by decide) (by decide) (by decide)
  rw [hrun]

/-- C4: `lwm2m_client_is_enabled` returns true exactly when the error returned by
`unlock_return_error` is `NSAPI_ERROR_OK` and the integer parsed by the query equals
`ONEEDGE_CLIENT_ENABLED`; whenever the transaction reports an error it returns false,
whatever was parsed. -/
theorem lwm2m_client_is_enabled_fail_closed (h : ATHandler σ) (c : Consts) (w : World σ) :
    ((lwm2m_client_is_enabled h c w).1 = true ↔
      (h.unlock_return_error (enabled_queried h w.chan).2).1 = c.NSAPI_ERROR_OK ∧
        (enabled_queried h w.chan).1.2 = c.ONEEDGE_CLIENT_ENABLED) ∧
    ((h.unlock_return_error (enabled_queried h w.chan).2).1 ≠ c.NSAPI_ERROR_OK →
      (lwm2m_client_is_enabled h c w).1 = false) := by
  simp only [lwm2m_client_is_enabled, enabled_queried, call_lock, call_at_cmd_int,
    call_unlock_return_error]
  constructor
  · split
    · next he => simp [he]
    · next he =>
      simp only [ne_eq, not_not] at he
      simp [he]
  · intro he
    simp [he]

/-- Witness of C4: the modem answers the query with the enabled value but the
transaction ends with an error, and the client is reported as disabled. -/
theorem lwm2m_client_is_enabled_fail_closed_witness :
    (lwm2m_client_is_enabled example_modem example_consts
      (example_world [1] [] (-3012) 0)).1 = false :=
  (lwm2m_client_is_enabled_fail_closed example_modem example_consts
    (example_world [1] [] (-3012) 0)).2 (by decide)

/-- Counterexample to C5 as stated: `object_3303.xml` is not a substring of
`object_33033.xml`, and `file_exists("object_3303.xml")` against a listing whose only
line is `object_33033.xml` returns false. -/
theorem file_exists_object_33033 :
    (file_exists example_modem example_consts 2 "object_3303.xml"
      (example_world [] ["object_33033.xml"] 0 0)).map Prod.fst = some false := by
  decide

/-- C5, amended: against a listing whose lines fit the read buffer, `file_exists(name)`
returns, and returns true exactly when some line contains `name` as a contiguous
substring; it stops at the first such line (the lines after it are left unread, and
`read_string` has been called once per line up to it) and returns false when the listing
is exhausted. -/
theorem file_exists_substring (c : Consts) (ok failv dev_err : Int) (name : String)
    (lines : List String) (fuel : Nat) (ints : List Int) (err : Int) (acc : Nat)
    (t : List ATCall) (hfuel : lines.length < fuel)
    (hfit : ∀ l ∈ lines, strlen l < c.ME310_MAX_FULL_FILE_PATH_LENGTH) :
    ∃ b d, file_exists (scripted ok failv dev_err) c fuel name
          ⟨⟨ints, lines, err, acc⟩, t⟩ =
        some (b, ⟨⟨ints, lines_after_first_match name lines, err, acc⟩, t ++ d⟩) ∧
      (b = true ↔ ∃ l ∈ lines, name.data <:+: l.data) ∧
      d.count (ATCall.read_string c.ME310_MAX_FULL_FILE_PATH_LENGTH) =
        lines_read name lines := by
  obtain ⟨d, hd, hc⟩ := scripted_m2mlist_scan ok failv dev_err c name lines fuel ints err acc
    (t ++ [ATCall.lock] ++ [ATCall.cmd_start_stop "#M2MLIST" "=/XML" "" []]
      ++ [ATCall.resp_start "#M2MLIST:" false]) hfuel hfit
  refine ⟨lines.any (fun l => strstr l name),
    ATCall.lock :: ATCall.cmd_start_stop "#M2MLIST" "=/XML" "" [] ::
      ATCall.resp_start "#M2MLIST:" false :: d, ?_, ?_, ?_⟩
  · simp only [file_exists, call_lock, call_cmd_start_stop, call_resp_start]
    rw [show (scripted ok failv dev_err).resp_start "#M2MLIST:" false
        ((scripted ok failv dev_err).cmd_start_stop "#M2MLIST" "=/XML" "" []
          ((scripted ok failv dev_err).lock ⟨ints, lines, err, acc⟩)) =
        ⟨ints, lines, err, acc⟩ from rfl]
    rw [hd]
    simp
  · simp [List.any_eq_true, strstr_iff]
  · simpa [List.count_cons] using hc

/-- Witness of C5, amended: the name is found in the second of three lines, which
contains it without being equal to it. -/
theorem file_exists_substring_witness :
    (file_exists (scripted 0 (-1) (-3012)) example_consts 4 "object_3303.xml"
      ⟨⟨[], ["a.xml", "/XML/object_3303.xml.bak", "b.xml"], 0, 0⟩, []⟩).map Prod.fst =
      some true := by
  obtain ⟨b, d, heq, hiff, _⟩ := file_exists_substring example_consts 0 (-1) (-3012)
    "object_3303.xml" ["a.xml", "/XML/object_3303.xml.bak", "b.xml"] 4 [] 0 0 []
    (by decide) (by decide)
  have hb : b = true := hiff.mpr ⟨"/XML/object_3303.xml.bak", by simp, by decide⟩
  rw [heq, hb]
  rfl

/-- C6: whenever the presence check `file_exists("object_3303.xml")` reports true,
`lwm2m_client_enable_temperature_object` returns true in the world the presence check
left, and the calls made contain no upload step: no `#M2MWRITE` command, no
`write_bytes`, no read of the completion acknowledgement. -/
theorem enable_temperature_object_short_circuit (h : ATHandler σ) (c : Consts) (fuel : Nat)
    (w w1 : World σ) (hf : file_exists h c fuel "object_3303.xml" w = some (true, w1)) :
    lwm2m_client_enable_temperature_object h c fuel w = some (true, w1) ∧
      ∃ d, w1.trace = w.trace ++ d ∧ ∀ e ∈ d, is_upload_step e = false := by
  refine ⟨?_, file_exists_no_upload h c fuel _ w _ hf⟩
  simp [lwm2m_client_enable_temperature_object, hf]

/-- Witness of C6: the listing holds `object_3303.xml`. -/
theorem enable_temperature_object_short_circuit_witness :
    lwm2m_client_enable_temperature_object example_modem example_consts 3
        (example_world [] ["a.xml", "object_3303.xml"] 0 8) =
      some (true, ⟨⟨[], [], 0, 8⟩,
        [ATCall.lock, ATCall.cmd_start_stop "#M2MLIST" "=/XML" "" [],
          ATCall.resp_start "#M2MLIST:" false, ATCall.info_resp, ATCall.read_string 128,
          ATCall.info_resp, ATCall.read_string 128, ATCall.resp_stop, ATCall.unlock]⟩) :=
  (enable_temperature_object_short_circuit example_modem example_consts 3
    (example_world [] ["a.xml", "object_3303.xml"] 0 8) _ rfl).1

/-- C7: when the file is absent, the upload prompt is received without error and
`write_bytes` accepts fewer bytes than `strlen(get_object_3303())`,
`lwm2m_client_enable_temperature_object` returns false; after the presence check it makes
the write-intent calls, one `write_bytes` and `unlock`, and nothing else: no read of the
completion acknowledgement, no `resp_stop`, no second write. -/
theorem enable_temperature_object_truncated (h : ATHandler σ) (c : Consts) (fuel : Nat)
    (w w1 : World σ) (hf : file_exists h c fuel "object_3303.xml" w = some (false, w1))
    (hok : h.get_last_error (upload_prompted h c w1.chan) = c.NSAPI_ERROR_OK)
    (hshort : (h.write_bytes c.get_object_3303 (strlen c.get_object_3303)
      (upload_prompted h c w1.chan)).1 < strlen c.get_object_3303) :
    lwm2m_client_enable_temperature_object h c fuel w =
      some (false, ⟨h.unlock (h.write_bytes c.get_object_3303 (strlen c.get_object_3303)
          (upload_prompted h c w1.chan)).2,
        w1.trace ++ (upload_intent_calls c ++ [upload_write_call c, ATCall.unlock])⟩) ∧
    (upload_intent_calls c ++ [upload_write_call c, ATCall.unlock]).countP is_write_bytes = 1 ∧
    (upload_intent_calls c ++ [upload_write_call c, ATCall.unlock]).countP is_ack_read = 0 ∧
    ATCall.resp_stop ∉ upload_intent_calls c ++ [upload_write_call c, ATCall.unlock] := by
  refine ⟨?_, ?_, ?_, ?_⟩
  · have hmod : (h.write_bytes c.get_object_3303 (strlen c.get_object_3303)
        (upload_prompted h c w1.chan)).1 % 2 ^ 32 < strlen c.get_object_3303 :=
      lt_of_le_of_lt (Nat.mod_le _ _) hshort
    simp only [lwm2m_client_enable_temperature_object, hf]
    rw [upload_short_write h c w1 hok hmod]
  · simp [upload_intent_calls, upload_write_call, is_write_bytes]
  · simp [upload_intent_calls, upload_write_call, is_ack_read]
  · simp [upload_intent_calls, upload_write_call]

/-- Witness of C7: the modem accepts 3 of the 8 bytes of the object description. -/
theorem enable_temperature_object_truncated_witness :
    (lwm2m_client_enable_temperature_object example_modem example_consts 2
      (example_world [] ["a.xml"] 0 3)).map Prod.fst = some false :=
  congrArg (Option.map Prod.fst) (enable_temperature_object_truncated example_modem
    example_consts 2 (example_world [] ["a.xml"] 0 3) ⟨⟨[], [], 0, 3⟩,
      [ATCall.lock, ATCall.cmd_start_stop "#M2MLIST" "=/XML" "" [],
        ATCall.resp_start "#M2MLIST:" false, ATCall.info_resp, ATCall.read_string 128,
        ATCall.info_resp, ATCall.resp_stop, ATCall.unlock]⟩
    rfl (by decide) (by decide)).1

/-- C8: `lwm2m_client_create_temperature_object_instance(instance)` first issues the
probe `#LWM2MR=0,3303,instance,5700,0` and reads the error. If the error is clear it
unlocks and returns true: no `#LWM2MNEWINST`, no `clear_error`. Otherwise it calls
`clear_error`, `flush`, one `#LWM2MNEWINST=0,3303,instance` and `unlock_return_error`,
and returns true exactly when the error that call returns is clear. -/
theorem create_temperature_object_instance_probe (h : ATHandler σ) (c : Consts) (inst : Int)
    (w : World σ) :
    (h.get_last_error (probed h inst w.chan) = c.NSAPI_ERROR_OK →
      lwm2m_client_create_temperature_object_instance h c inst w =
        (true, ⟨h.unlock (probed h inst w.chan),
          w.trace ++ [ATCall.lock, probe_call inst, ATCall.get_last_error,
            ATCall.unlock]⟩)) ∧
    (h.get_last_error (probed h inst w.chan) ≠ c.NSAPI_ERROR_OK →
      lwm2m_client_create_temperature_object_instance h c inst w =
        (decide ((h.unlock_return_error (created h inst w.chan)).1 = c.NSAPI_ERROR_OK),
          ⟨(h.unlock_return_error (created h inst w.chan)).2,
            w.trace ++ [ATCall.lock, probe_call inst, ATCall.get_last_error,
              ATCall.clear_error, ATCall.flush, newinst_call inst,
              ATCall.unlock_return_error]⟩)) ∧
    [ATCall.lock, probe_call inst, ATCall.get_last_error,
      ATCall.unlock].countP is_newinst = 0 ∧
    [ATCall.lock, probe_call inst, ATCall.get_last_error, ATCall.clear_error, ATCall.flush,
      newinst_call inst, ATCall.unlock_return_error].countP is_newinst = 1 :=
  ⟨create_instance_probe_ok h c inst w, create_instance_probe_failed h c inst w,
    by simp [probe_call, is_newinst], by simp [probe_call, newinst_call, is_newinst]⟩

/-- Witness of C8: the probe fails on a modem in error; the error is cleared and the
instance is created. -/
theorem create_temperature_object_instance_probe_witness :
    lwm2m_client_create_temperature_object_instance example_modem example_consts 0
        (example_world [] [] (-3012) 0) =
      (true, ⟨⟨[], [], 0, 0⟩,
        [ATCall.lock, probe_call 0, ATCall.get_last_error, ATCall.clear_error, ATCall.flush,
          newinst_call 0, ATCall.unlock_return_error]⟩) :=
  (create_temperature_object_instance_probe example_modem example_consts 0
    (example_world [] [] (-3012) 0)).2.1 (by decide)

/-- Counterexample to C9 as stated: `lwm2m_client_create_temperature_object_instance`
calls `get_last_error` while it holds the lock. -/
theorem create_instance_reads_error_locked :
    reads_error_locked false (lwm2m_client_create_temperature_object_instance example_modem
      example_consts 0 (example_world [] [] 0 0)).2.trace = true := by
  decide

/-- C9, amended: in every operation other than the upload transaction of
`lwm2m_client_enable_temperature_object` and
`lwm2m_client_create_temperature_object_instance`, `get_last_error` is never called, so
never while the lock is held, and the error codes that `at_cmd_discard` and `at_cmd_int`
hand back while the lock is held are unused: replacing them changes neither the result
nor the channel state nor the calls made. The error code that the four discard
transactions return is the one `unlock_return_error`, the releasing call, returns. The
two excepted operations call `get_last_error` while holding the lock, on every run. -/
theorem error_read_discipline (h : ATHandler σ) (c : Consts) (w : World σ) :
    (∀ context_id,
      ErrorReadOnlyUnlocked w (is_ipeasy_context_activated h c context_id w).2 ∧
      CodesUnused h (fun k => is_ipeasy_context_activated k c context_id w)) ∧
    (∀ context_id,
      ErrorReadOnlyUnlocked w (activate_ipeasy_context h c context_id w).2 ∧
      CodesUnused h (fun k => activate_ipeasy_context k c context_id w) ∧
      (activate_ipeasy_context h c context_id w).1 =
        (discard_transaction h "#SGACT" "=" "%d%d"
          [ATArg.int context_id, ATArg.int c.ME310_IPEASY_ACTIVATED_CONTEXT] w.chan).1) ∧
    (∀ context mode,
      ErrorReadOnlyUnlocked w (lwm2m_client_enable h c context mode w).2 ∧
      CodesUnused h (fun k => lwm2m_client_enable k c context mode w) ∧
      (lwm2m_client_enable h c context mode w).1 =
        (discard_transaction h "#LWM2MENA" "=" "%d%d%d"
          [ATArg.int c.ONEEDGE_CLIENT_ENABLED, ATArg.int context, ATArg.int mode]
          w.chan).1) ∧
    (ErrorReadOnlyUnlocked w (lwm2m_client_is_enabled h c w).2 ∧
      CodesUnused h (fun k => lwm2m_client_is_enabled k c w)) ∧
    (∀ battery_level,
      ErrorReadOnlyUnlocked w (lwm2m_client_set_battery_level h battery_level w).2 ∧
      CodesUnused h (fun k => lwm2m_client_set_battery_level k battery_level w) ∧
      (lwm2m_client_set_battery_level h battery_level w).1 =
        (discard_transaction h "#LWM2MSET" "=" "%d%d%d%d%d%d"
          [ATArg.int 0, ATArg.int 3, ATArg.int 0, ATArg.int 9, ATArg.int 0,
            ATArg.int battery_level] w.chan).1) ∧
    (∀ fuel target_file,
      (∀ r, file_exists h c fuel target_file w = some r → ErrorReadOnlyUnlocked w r.2) ∧
      CodesUnused h (fun k => file_exists k c fuel target_file w)) ∧
    (∀ action,
      ErrorReadOnlyUnlocked w (lwm2m_client_send_ack h action w).2 ∧
      CodesUnused h (fun k => lwm2m_client_send_ack k action w) ∧
      (lwm2m_client_send_ack h action w).1 =
        (discard_transaction h "#LWM2MACK" "=" "%d" [ATArg.int action] w.chan).1) ∧
    (ErrorReadOnlyUnlocked w (urc_lwm2m_tlt h c w).2 ∧
      CodesUnused h (fun k => urc_lwm2m_tlt k c w)) ∧
    (ErrorReadOnlyUnlocked w (urc_lwm2mring h c w).2 ∧
      CodesUnused h (fun k => urc_lwm2mring k c w)) ∧
    (ErrorReadOnlyUnlocked w (urc_lwm2mend h c w).2 ∧
      CodesUnused h (fun k => urc_lwm2mend k c w)) ∧
    (ErrorReadOnlyUnlocked w (urc_lwm2minfo h c w).2 ∧
      CodesUnused h (fun k => urc_lwm2minfo k c w)) ∧
    ReadsErrorWhileLocked w (upload_object_3303 h c w).2 ∧
    (∀ inst, ReadsErrorWhileLocked w
      (lwm2m_client_create_temperature_object_instance h c inst w).2) := by
  refine ⟨?_, ?_, ?_, ?_, ?_, ?_, ?_, ?_, ?_, ?_, ?_, ?_, ?_⟩
  · intro context_id
    refine ⟨quiet_unlocked (is_ipeasy_context_activated_quiet h c context_id w), ?_⟩
    intro f g
    simp only [is_ipeasy_context_activated, is_ipeasy_context_activated_loop_codes]
    rfl
  · exact fun context_id =>
      ⟨quiet_unlocked (activate_ipeasy_context_quiet h c context_id w), fun _ _ => rfl, rfl⟩
  · exact fun context mode =>
      ⟨quiet_unlocked (lwm2m_client_enable_quiet h c context mode w), fun _ _ => rfl, rfl⟩
  · exact ⟨quiet_unlocked (lwm2m_client_is_enabled_quiet h c w), fun _ _ => rfl⟩
  · exact fun level =>
      ⟨quiet_unlocked (lwm2m_client_set_battery_level_quiet h level w), fun _ _ => rfl, rfl⟩
  · intro fuel name
    refine ⟨fun r hr => quiet_unlocked (file_exists_quiet h c fuel name w r hr), ?_⟩
    intro f g
    simp only [file_exists, file_exists_loop_codes]
    rfl
  · exact fun action =>
      ⟨quiet_unlocked (lwm2m_client_send_ack_quiet h action w), fun _ _ => rfl, rfl⟩
  · exact ⟨quiet_unlocked (urc_lwm2m_tlt_quiet h c w), fun _ _ => rfl⟩
  · exact ⟨quiet_unlocked (urc_lwm2mring_quiet h c w), fun _ _ => rfl⟩
  · exact ⟨quiet_unlocked (urc_lwm2mend_quiet h c w), fun _ _ => rfl⟩
  · exact ⟨quiet_unlocked (urc_lwm2minfo_quiet h c w), fun _ _ => rfl⟩
  · obtain ⟨d, ht, _, hg⟩ := upload_object_3303_calls h c w
    exact ⟨d, ht, hg⟩
  · intro inst
    obtain ⟨d, ht, _, hg⟩ := create_instance_calls h c inst w
    exact ⟨d, ht, hg⟩

/-- Witness of C9, amended: a run of `file_exists` that returns. -/
theorem error_read_discipline_witness :
    ∃ r, file_exists example_modem example_consts 2 "object_3303.xml"
        (example_world [] ["a.xml"] 0 8) = some r ∧
      ErrorReadOnlyUnlocked (example_world [] ["a.xml"] 0 8) r.2 :=
  ⟨_, rfl, ((error_read_discipline example_modem example_consts
    (example_world [] ["a.xml"] 0 8)).2.2.2.2.2.1 2 "object_3303.xml").1 _ rfl⟩

/-- C10: when the file is absent and the channel reports an error after the `#M2MWRITE`
command and the wait for the `>>>` prompt, `lwm2m_client_enable_temperature_object`
returns false; after the presence check it makes the write-intent calls and `unlock`,
and nothing else: `write_bytes` is never called and the completion acknowledgement is
never read. -/
theorem enable_temperature_object_refused (h : ATHandler σ) (c : Consts) (fuel : Nat)
    (w w1 : World σ) (hf : file_exists h c fuel "object_3303.xml" w = some (false, w1))
    (herr : h.get_last_error (upload_prompted h c w1.chan) ≠ c.NSAPI_ERROR_OK) :
    lwm2m_client_enable_temperature_object h c fuel w =
      some (false, ⟨h.unlock (upload_prompted h c w1.chan),
        w1.trace ++ (upload_intent_calls c ++ [ATCall.unlock])⟩) ∧
    (upload_intent_calls c ++ [ATCall.unlock]).countP is_write_bytes = 0 ∧
    (upload_intent_calls c ++ [ATCall.unlock]).countP is_ack_read = 0 := by
  refine ⟨?_, ?_, ?_⟩
  · simp only [lwm2m_client_enable_temperature_object, hf]
    rw [upload_prompt_error h c w1 herr]
  · simp [upload_intent_calls, is_write_bytes]
  · simp [upload_intent_calls, is_ack_read]

/-- Witness of C10: the modem is in error when the prompt is awaited. -/
theorem enable_temperature_object_refused_witness :
    (lwm2m_client_enable_temperature_object example_modem example_consts 2
      (example_world [] ["a.xml"] (-3012) 8)).map Prod.fst = some false :=
  congrArg (Option.map Prod.fst) (enable_temperature_object_refused example_modem
    example_consts 2 (example_world [] ["a.xml"] (-3012) 8) ⟨⟨[], [], -3012, 8⟩,
      [ATCall.lock, ATCall.cmd_start_stop "#M2MLIST" "=/XML" "" [],
        ATCall.resp_start "#M2MLIST:" false, ATCall.info_resp, ATCall.read_string 128,
        ATCall.info_resp, ATCall.resp_stop, ATCall.unlock]⟩
    rfl (by decide)).1

end properties

end OneEdge
